import Mathlib

/-!
Verification of the IR linking and specialization engine of the Slang
shading-language compiler (`source/slang/slang-ir-link.cpp`).

The development shallowly embeds the data model and the operations of the
linker: decorations, the target-specialization ranking used by the variant
selector (`getTargetSpecialiationLevel`, `isBetterForTarget`, and the
best-candidate scan of `cloneGlobalValueWithLinkage`), the symbol-table
builder (`insertGlobalValueSymbol`), and the memoized graph cloner together
with the `linkIR` driver as fuel-indexed state-passing functions.
-/

namespace SlangLink

/-- Metadata annotations attached to an instruction.  In the source these are
decoration child instructions (`IRLinkageDecoration`, `IRTargetDecoration`,
`IRExportDecoration`, layout decorations, ...); the embedding models them as
plain data carried by the instruction, and cloning a decoration list amounts
to copying it. -/
inductive Decoration where
  | linkage (mangledName : String)
  | targetDeco (targetName : String)
  | exportDeco
  | keepAlive
  | layout (tag : Nat)
  | bindExistentialSlots
  | otherDeco (tag : Nat)
deriving DecidableEq, Repr

/-- How specialized a declaration is for the chosen target
(`TargetSpecializationLevel` in the source, including its ordering
`specializedForOtherTarget = 0 < notSpecialized < specializedForTarget`). -/
inductive TargetSpecializationLevel where
  | specializedForOtherTarget
  | notSpecialized
  | specializedForTarget
deriving DecidableEq, Repr, Fintype

/-- Numeric value of a specialization level, as used by the
`UInt(newLevel) > UInt(oldLevel)` comparison in `isBetterForTarget`. -/
def TargetSpecializationLevel.toNat : TargetSpecializationLevel → Nat
  | .specializedForOtherTarget => 0
  | .notSpecialized => 1
  | .specializedForTarget => 2

/-- The view of an IR value taken by the variant selector: its decoration
list, whether it has a body, and — when it is a generic — the value returned
by its first block if that block ends in an `IRReturnVal`.
`genericNoRet` stands for a generic whose body does not end in a return of a
value (the loop in `getTargetSpecialiationLevel` then stops at the generic
itself). -/
inductive IRVal where
  | inst (decorations : List Decoration) (hasBody : Bool)
  | genericRet (decorations : List Decoration) (retVal : IRVal)
  | genericNoRet (decorations : List Decoration)
deriving DecidableEq, Repr

/-- Decoration list of a value. -/
def IRVal.decorations : IRVal → List Decoration
  | .inst ds _ => ds
  | .genericRet ds _ => ds
  | .genericNoRet ds => ds

/-- The `while (auto genericVal = as<IRGeneric>(val))` loop at the start of
`getTargetSpecialiationLevel`: look through generics to the value returned
by the first block, stopping when the value is not a generic or the body does
not end in `IRReturnVal`. -/
def unwrapGeneric : IRVal → IRVal
  | .genericRet _ v => unwrapGeneric v
  | v => v

/-- Scan of the decoration list in `getTargetSpecialiationLevel`: a target
decoration naming the active target returns `specializedForTarget`
immediately; any other target decoration downgrades the running result to
`specializedForOtherTarget`; non-target decorations are skipped. -/
def levelLoop (targetName : String) :
    List Decoration → TargetSpecializationLevel → TargetSpecializationLevel
  | [], result => result
  | d :: ds, result =>
    match d with
    | .targetDeco n =>
      if n = targetName then .specializedForTarget
      else levelLoop targetName ds .specializedForOtherTarget
    | _ => levelLoop targetName ds result

/-- How specialized a given declaration is for the chosen target
(`getTargetSpecialiationLevel` in the source, name kept including its typo):
unwrap generic wrappers to the returned value, then scan its decorations. -/
def getTargetSpecialiationLevel (inVal : IRVal) (targetName : String) :
    TargetSpecializationLevel :=
  levelLoop targetName (unwrapGeneric inVal).decorations .notSpecialized

/-- Test for `findDecoration<IRExportDecoration>() != nullptr`. -/
def hasExportDecoration (v : IRVal) : Bool :=
  v.decorations.any fun d => d = .exportDeco

/-- Modelled from the spec: `isDefinition` is defined outside this
translation unit (`slang-ir.cpp`); per the spec, a candidate is a definition
when it has executable/structural content (a body), and a bodyless forward
declaration otherwise.  A generic is a definition when its body block is
present. -/
def isDefinition : IRVal → Bool
  | .inst _ hasBody => hasBody
  | .genericRet _ _ => true
  | .genericNoRet _ => false

/-- Comparison `isBetterForTarget(context, newVal, oldVal)` from the source:
first the target-specialization levels, then export beats import, then a
definition beats a declaration, then keep the old value. -/
def isBetterForTarget (targetName : String) (newVal oldVal : IRVal) : Bool :=
  let newLevel := getTargetSpecialiationLevel newVal targetName
  let oldLevel := getTargetSpecialiationLevel oldVal targetName
  if newLevel ≠ oldLevel then decide (newLevel.toNat > oldLevel.toNat)
  else
    let newIsExport := hasExportDecoration newVal
    let oldIsExport := hasExportDecoration oldVal
    if newIsExport ≠ oldIsExport then newIsExport
    else
      let newIsDef := isDefinition newVal
      let oldIsDef := isDefinition oldVal
      if newIsDef ≠ oldIsDef then newIsDef
      else false

/-- The best-candidate scan of `cloneGlobalValueWithLinkage`:
`bestVal = sym->irGlobalValue; for each following candidate newVal: if
isBetterForTarget(newVal, bestVal) then bestVal = newVal`. -/
def pickBest (better : α → α → Bool) (head : α) (rest : List α) : α :=
  rest.foldl (fun bestVal newVal => if better newVal bestVal then newVal else bestVal) head

/-- Per-name list update of `insertGlobalValueSymbol`: a fresh name starts a
singleton list; otherwise the new symbol is spliced in directly after the
head (`sym->nextWithSameName = prev->nextWithSameName;
prev->nextWithSameName = sym`). -/
def insertSymbolList (gv : α) : List α → List α
  | [] => [gv]
  | p :: rest => p :: gv :: rest

/-- The per-name candidate list obtained by calling
`insertGlobalValueSymbol` once for each instruction of `gvs`, in build
order. -/
def buildSymbolList (gvs : List α) : List α :=
  gvs.foldl (fun l gv => insertSymbolList gv l) []

/-- Total rank of a candidate under the selector's lexicographic order:
the specialization level is compared first, then export status, then
definition status.  `isBetterForTarget` holds exactly when this rank is
strictly larger (see `isBetterForTarget_eq_rank`). -/
def rankVal (targetName : String) (v : IRVal) : Nat :=
  4 * (getTargetSpecialiationLevel v targetName).toNat
    + 2 * (if hasExportDecoration v then 1 else 0)
    + (if isDefinition v then 1 else 0)

/-- Operation tags of IR instructions (`IROp` in the source), restricted to
the instruction kinds the linking pass distinguishes.  The global-value kinds
`GlobalVar`, `GlobalConstant`, `GlobalParam`, `InterfaceType` and
`GlobalGenericParam` of the source follow the same cloning pattern as the
kinds modelled here and are not represented. -/
inductive Op where
  | func
  | generic
  | witnessTable
  | structType
  | structKey
  | block
  | param
  | call
  | returnVal
  | specialize
  | bindGlobalGenericParam
  | bindGlobalExistentialSlots
  | intLit
  | otherOp (tag : Nat)
deriving DecidableEq, Repr

/-- An IR instruction: operation tag, full type (a reference to another
instruction), operand references, decorations (modelled as data, see
`Decoration`), ordered child instructions, and the payload of literal
instructions. -/
structure Inst where
  op : Op
  typeRef : Option Nat := none
  operands : List Nat := []
  decorations : List Decoration := []
  children : List Nat := []
  litVal : Option Int := none
deriving DecidableEq, Repr

/-- First-match association-list lookup (used for instruction heaps, the
symbol dictionary, and clone-memo frames). -/
def lookupAssoc {κ α : Type} [DecidableEq κ] : List (κ × α) → κ → Option α
  | [], _ => none
  | (k', v) :: rest, k => if k' = k then some v else lookupAssoc rest k

/-- The mangled name of the first `IRLinkageDecoration` on an instruction
(`findDecoration<IRLinkageDecoration>()->getMangledName()`). -/
def findLinkageName (i : Inst) : Option String :=
  i.decorations.findSome? fun d =>
    match d with
    | .linkage n => some n
    | _ => none

/-- Test whether a heap reference points at a block instruction. -/
def isBlockIn (heap : List (Nat × Inst)) (c : Nat) : Bool :=
  match lookupAssoc heap c with
  | some ci => decide (ci.op = .block)
  | none => false

/-- Test whether a heap reference points at a parameter instruction. -/
def isParamIn (heap : List (Nat × Inst)) (c : Nat) : Bool :=
  match lookupAssoc heap c with
  | some ci => decide (ci.op = .param)
  | none => false

/-- Block children of an instruction, in order (the
`getFirstBlock`/`getNextBlock` iteration of the source). -/
def blocksOf (heap : List (Nat × Inst)) (i : Inst) : List Nat :=
  i.children.filter (isBlockIn heap)

/-- The value returned by a generic's first block, when that block's last
instruction is an `IRReturnVal` (the lookthrough step of
`getTargetSpecialiationLevel`). -/
def genericReturnVal (heap : List (Nat × Inst)) (i : Inst) : Option Nat :=
  match (blocksOf heap i).head? with
  | none => none
  | some blkId =>
    match lookupAssoc heap blkId with
    | none => none
    | some blk =>
      match blk.children.getLast? with
      | none => none
      | some lastId =>
        match lookupAssoc heap lastId with
        | none => none
        | some last =>
          if last.op = .returnVal then last.operands.head? else none

/-- Whether a heap instruction has a body (a block child); this backs the
spec-modelled `isDefinition` on heap instructions. -/
def hasBodyH (heap : List (Nat × Inst)) (i : Inst) : Bool :=
  i.children.any (isBlockIn heap)

/-- View of a heap instruction as the `IRVal` tree examined by the variant
selector: decorations, body presence, and the generic-lookthrough chain.
The fuel bounds the depth of nested generic wrappers that are looked
through. -/
def viewIRVal (fuel : Nat) (heap : List (Nat × Inst)) (id : Nat) : IRVal :=
  match fuel with
  | 0 => .inst [] false
  | n + 1 =>
    match lookupAssoc heap id with
    | none => .inst [] false
    | some i =>
      if i.op = .generic then
        match genericReturnVal heap i with
        | some v => .genericRet i.decorations (viewIRVal n heap v)
        | none => .genericNoRet i.decorations
      else .inst i.decorations (hasBodyH heap i)

/-- Heap-level form of `isBetterForTarget`, comparing two instruction
references through their selector views. -/
def isBetterForTargetH (fuel : Nat) (targetName : String)
    (heap : List (Nat × Inst)) (newVal oldVal : Nat) : Bool :=
  isBetterForTarget targetName (viewIRVal fuel heap newVal) (viewIRVal fuel heap oldVal)

/-- Errors of the linking pass.  `danglingReference` stands for the fatal
defect of following a reference that does not resolve (undefined behaviour
in the source); the named errors correspond to the `SLANG_UNEXPECTED` calls
of `slang-ir-link.cpp`; `outOfFuel` marks a computation that exceeds the
fuel bound (the source recursion has no such bound and would not
terminate). -/
inductive LinkError where
  | outOfFuel
  | danglingReference
  | noMatchingValuesRegistered
  | noMatchingIRSymbol
  | duplicateGlobalInstruction
  | expectedEntryPointFunc
  | tooManyParameters
  | unsupportedSpecialize
deriving DecidableEq, Repr

/-- Mutable state of one linking operation: the destination module's
instruction heap, the ordered children of its module root, the
fresh-id counter, and the specialization-environment chain (a list of
clone-memo frames, innermost first; `IRSpecEnv` chained through `parent` in
the source). -/
structure SpecState where
  destHeap : List (Nat × Inst) := []
  rootChildren : List Nat := []
  nextId : Nat := 0
  env : List (List (Nat × Nat)) := [[]]
deriving DecidableEq, Repr

/-- State-passing computation of the cloner, failing with a `LinkError`. -/
def SpecM (α : Type) : Type := SpecState → Except LinkError (α × SpecState)

/-- Return a value, leaving the state unchanged. -/
def SpecM.pureF (a : α) : SpecM α := fun s => .ok (a, s)

/-- Sequence two computations, aborting on the first error. -/
def SpecM.bindF (m : SpecM α) (f : α → SpecM β) : SpecM β := fun s =>
  match m s with
  | .ok (a, s') => f a s'
  | .error e => .error e

instance : Monad SpecM where
  pure := SpecM.pureF
  bind := SpecM.bindF

/-- Read the current state. -/
def readSt : SpecM SpecState := fun s => .ok (s, s)

/-- Abort with a fatal error. -/
def throwE (e : LinkError) : SpecM α := fun _ => .error e

/-- Allocate a fresh instruction in the destination heap and return its id
(the `IRBuilder` create operations of the source). -/
def allocInst (i : Inst) : SpecM Nat := fun s =>
  .ok (s.nextId, { s with destHeap := (s.nextId, i) :: s.destHeap, nextId := s.nextId + 1 })

/-- Update a destination instruction in place. -/
def modifyInst (id : Nat) (g : Inst → Inst) : SpecM Unit := fun s =>
  .ok ((), { s with destHeap := s.destHeap.map fun p => if p.1 = id then (p.1, g p.2) else p })

/-- Append a child to an instruction, or to the module root when `parent` is
`none` (the builder's insert-into position). -/
def appendChildTo (parent : Option Nat) (child : Nat) : SpecM Unit :=
  match parent with
  | none => fun s => .ok ((), { s with rootChildren := s.rootChildren ++ [child] })
  | some p => modifyInst p fun i => { i with children := i.children ++ [child] }

/-- Move an instruction to the end of its parent's child list
(`moveToEnd` in the source). -/
def moveToEndOf (parent : Option Nat) (id : Nat) : SpecM Unit :=
  match parent with
  | none => fun s =>
      .ok ((), { s with rootChildren := s.rootChildren.filter (fun c => c ≠ id) ++ [id] })
  | some p => modifyInst p fun i => { i with children := i.children.filter (fun c => c ≠ id) ++ [id] }

/-- Record `orig ↦ cloned` in the innermost environment frame
(`context->getEnv()->clonedValues[originalValue] = clonedValue`; the
first-match frame lookup makes prepending behave as dictionary
assignment). -/
def registerClonedValuePure (st : SpecState) (cloned orig : Nat) : SpecState :=
  match st.env with
  | [] => st
  | f :: fs => { st with env := ((orig, cloned) :: f) :: fs }

/-- Monadic form of `registerClonedValuePure`. -/
def registerClonedValueM (cloned orig : Nat) : SpecM Unit := fun s =>
  .ok ((), registerClonedValuePure s cloned orig)

/-- Originals to associate with a clone (`IROriginalValuesForClone`): an
optional direct original, plus the chain of all same-name symbols whose
`irGlobalValue`s the clone must also be registered under. -/
structure IROriginalValuesForClone where
  originalVal : Option Nat := none
  sym : List Nat := []
deriving DecidableEq, Repr

/-- Register a clone under the direct original (when present) and under
every same-name symbol of the chain (the two overloads of
`registerClonedValue` in the source). -/
def registerAllPure (st : SpecState) (cloned : Nat) (ov : IROriginalValuesForClone) : SpecState :=
  let st1 :=
    match ov.originalVal with
    | some o => registerClonedValuePure st cloned o
    | none => st
  ov.sym.foldl (fun s o => registerClonedValuePure s cloned o) st1

/-- Monadic form of `registerAllPure`. -/
def registerClonedValuesM (cloned : Nat) (ov : IROriginalValuesForClone) : SpecM Unit := fun s =>
  .ok ((), registerAllPure s cloned ov)

/-- Lookup in one clone-memo frame. -/
def lookupFrame : List (Nat × Nat) → Nat → Option Nat
  | [], _ => none
  | (k, v) :: rest, key => if k = key then some v else lookupFrame rest key

/-- Find a pre-existing cloned value by walking the environment chain from
the innermost frame outward (`findClonedValue` in the source). -/
def findClonedValue (env : List (List (Nat × Nat))) (key : Nat) : Option Nat :=
  match env with
  | [] => none
  | f :: fs =>
    match lookupFrame f key with
    | some v => some v
    | none => findClonedValue fs key

/-- Read-only context of one linking operation: the source heap, the symbol
dictionary (built once, then read-only), the code-generation target's name
(`getTargetName` of the source maps the `CodeGenTarget` enumeration to this
string), and whether debug-only checks are enabled. -/
structure LinkCtx where
  srcHeap : List (Nat × Inst)
  symbols : List (String × List Nat)
  targetName : String
  debug : Bool
deriving Repr

/-- Copy a decoration list onto a cloned instruction (`cloneDecorations`;
with decorations modelled as data the per-decoration `cloneInst` calls
amount to appending copies). -/
def copyDecorationsM (cloned : Nat) (ds : List Decoration) : SpecM Unit :=
  modifyInst cloned fun i => { i with decorations := i.decorations ++ ds }

/-- Whether a destination instruction carries a linkage decoration with the
given mangled name. -/
def hasLinkageNamed (heap : List (Nat × Inst)) (id : Nat) (name : String) : Bool :=
  match lookupAssoc heap id with
  | some i => decide (findLinkageName i = some name)
  | none => false

/-- Debug-only duplicate check (`checkIRDuplicate`): in debug builds, a
second live module child carrying the same linkage name as the freshly
cloned instruction is reported as a fatal "duplicate global instruction"
defect; outside debug builds the check does nothing. -/
def checkIRDuplicateF (debug : Bool) (destHeap : List (Nat × Inst))
    (rootChildren : List Nat) (instId : Nat) (name : String) : Except LinkError Unit :=
  if debug then
    if rootChildren.any (fun child => decide (child ≠ instId) && hasLinkageNamed destHeap child name) then
      .error .duplicateGlobalInstruction
    else .ok ()
  else .ok ()

/-- The duplicate check performed at the end of `cloneFunctionCommon`: when
the cloned function carries a linkage decoration, run `checkIRDuplicate`
against the destination module's children. -/
def checkFuncDuplicateM (debug : Bool) (clonedId : Nat) : SpecM Unit := fun s =>
  match lookupAssoc s.destHeap clonedId with
  | none => .ok ((), s)
  | some ci =>
    match findLinkageName ci with
    | some name =>
      match checkIRDuplicateF debug s.destHeap s.rootChildren clonedId name with
      | .ok _ => .ok ((), s)
      | .error e => .error e
    | none => .ok ((), s)

/-- The cloning operations of `slang-ir-link.cpp`, gathered in one record so
that the mutually recursive family can be built by plain structural
recursion on fuel (see `cloneFns`); each field corresponds to one source
function, and the bodies live in `cloneStep`. -/
structure CloneFns where
  cloneValue : LinkCtx → Nat → SpecM Nat
  cloneTypeOpt : LinkCtx → Option Nat → SpecM (Option Nat)
  maybeCloneValue : LinkCtx → Nat → SpecM Nat
  cloneOperands : LinkCtx → Nat → List Nat → SpecM Unit
  cloneInstList : LinkCtx → Nat → List Nat → SpecM Unit
  cloneGlobalValue : LinkCtx → Nat → SpecM Nat
  cloneGlobalValueWithLinkage : LinkCtx → Option Nat → Option String → SpecM (Option Nat)
  cloneGlobalValueWithLinkageRest : LinkCtx → Option Nat → Option String → SpecM (Option Nat)
  cloneGlobalValueImpl : LinkCtx → Nat → IROriginalValuesForClone → SpecM Nat
  cloneInst : LinkCtx → Option Nat → Nat → IROriginalValuesForClone → SpecM Nat
  cloneFuncImpl : LinkCtx → Option Nat → Nat → IROriginalValuesForClone → SpecM Nat
  cloneFunctionCommon : LinkCtx → Option Nat → Nat → Nat → SpecM Unit
  cloneGlobalValueWithCodeCommon : LinkCtx → Nat → Nat → SpecM Unit
  cloneBlockShells : LinkCtx → Nat → List Nat → SpecM (List (Nat × Nat))
  cloneBlockContents : LinkCtx → List (Nat × Nat) → SpecM Unit
  cloneSimpleGlobalValueImpl : LinkCtx → Nat → IROriginalValuesForClone → Nat → Bool → SpecM Unit
  cloneWitnessTableImpl : LinkCtx → Option Nat → Nat → IROriginalValuesForClone → SpecM Nat
  cloneStructTypeImpl : LinkCtx → Option Nat → Nat → IROriginalValuesForClone → SpecM Nat
  cloneStructKeyImpl : LinkCtx → Option Nat → Nat → IROriginalValuesForClone → SpecM Nat
  cloneGenericImpl : LinkCtx → Option Nat → Nat → IROriginalValuesForClone → SpecM Nat

/-- The base of the fuel recursion: every operation aborts with
`outOfFuel` (the source recursion is unbounded; fuel only bounds the
embedding). -/
def cloneFnsZero : CloneFns where
  cloneValue _ _ := throwE .outOfFuel
  cloneTypeOpt _ _ := throwE .outOfFuel
  maybeCloneValue _ _ := throwE .outOfFuel
  cloneOperands _ _ _ := throwE .outOfFuel
  cloneInstList _ _ _ := throwE .outOfFuel
  cloneGlobalValue _ _ := throwE .outOfFuel
  cloneGlobalValueWithLinkage _ _ _ := throwE .outOfFuel
  cloneGlobalValueWithLinkageRest _ _ _ := throwE .outOfFuel
  cloneGlobalValueImpl _ _ _ := throwE .outOfFuel
  cloneInst _ _ _ _ := throwE .outOfFuel
  cloneFuncImpl _ _ _ _ := throwE .outOfFuel
  cloneFunctionCommon _ _ _ _ := throwE .outOfFuel
  cloneGlobalValueWithCodeCommon _ _ _ := throwE .outOfFuel
  cloneBlockShells _ _ _ := throwE .outOfFuel
  cloneBlockContents _ _ := throwE .outOfFuel
  cloneSimpleGlobalValueImpl _ _ _ _ _ := throwE .outOfFuel
  cloneWitnessTableImpl _ _ _ _ := throwE .outOfFuel
  cloneStructTypeImpl _ _ _ _ := throwE .outOfFuel
  cloneStructKeyImpl _ _ _ _ := throwE .outOfFuel
  cloneGenericImpl _ _ _ _ := throwE .outOfFuel

/-- One step of the cloning family: each field is the transcription of the
corresponding source function, with every (mutually) recursive call going
through `next`.  `f` is the fuel remaining after this step, used only for
the generic-lookthrough depth of the candidate ranking. -/
def cloneStep (f : Nat) (next : CloneFns) : CloneFns where
  -- `cloneValue`: a memo hit in the environment chain is returned as is;
  -- otherwise the clone is delegated to `maybeCloneValue`.
  cloneValue ctx origId := fun s =>
    match findClonedValue s.env origId with
    | some c => .ok (c, s)
    | none => next.maybeCloneValue ctx origId s
  -- `cloneType`: a null type stays null.
  cloneTypeOpt ctx t :=
    match t with
    | none => pure none
    | some id => do
      let c ← next.cloneValue ctx id
      pure (some c)
  -- `IRSpecContext::maybeCloneValue`: named global-value kinds go through
  -- `cloneGlobalValue`; literals are rebuilt by value in the destination
  -- module; every other ("hoistable") instruction is cloned structurally —
  -- the clone is registered before its operands are recursively cloned,
  -- then decorations and children are cloned, and the result is added at
  -- global scope (`addHoistableInst`, modelled from the spec as insertion
  -- at the module root since it is defined outside this translation unit).
  maybeCloneValue ctx origId :=
    match lookupAssoc ctx.srcHeap origId with
    | none => throwE .danglingReference
    | some i =>
      match i.op with
      | .structType => next.cloneGlobalValue ctx origId
      | .func => next.cloneGlobalValue ctx origId
      | .generic => next.cloneGlobalValue ctx origId
      | .structKey => next.cloneGlobalValue ctx origId
      | .witnessTable => next.cloneGlobalValue ctx origId
      | .intLit => do
        let t ← next.cloneTypeOpt ctx i.typeRef
        allocInst { op := .intLit, typeRef := t, litVal := i.litVal }
      | _ => do
        let t ← next.cloneTypeOpt ctx i.typeRef
        let cloned ← allocInst { op := i.op, typeRef := t }
        registerClonedValueM cloned origId
        next.cloneOperands ctx cloned i.operands
        copyDecorationsM cloned i.decorations
        next.cloneInstList ctx cloned i.children
        appendChildTo none cloned
        pure cloned
  -- Operand loop of `maybeCloneValue`/`cloneInst`: clone each operand in
  -- order and wire it into the cloned instruction.
  cloneOperands ctx cloned ops :=
    match ops with
    | [] => pure ()
    | o :: rest => do
      let c ← next.cloneValue ctx o
      modifyInst cloned fun i => { i with operands := i.operands ++ [c] }
      next.cloneOperands ctx cloned rest
  -- Child loop of `cloneDecorationsAndChildren`, `cloneSimpleGlobalValueImpl`
  -- and the block-content phase: clone each child via `cloneInst`, with
  -- itself as its original value.
  cloneInstList ctx clonedParent insts :=
    match insts with
    | [] => pure ()
    | o :: rest => do
      let _ ← next.cloneInst ctx (some clonedParent) o { originalVal := some o }
      next.cloneInstList ctx clonedParent rest
  -- `cloneGlobalValue`: delegate to `cloneGlobalValueWithLinkage` with the
  -- value's own linkage decoration.
  cloneGlobalValue ctx origId :=
    match lookupAssoc ctx.srcHeap origId with
    | none => throwE .danglingReference
    | some i => do
      let r ← next.cloneGlobalValueWithLinkage ctx (some origId) (findLinkageName i)
      match r with
      | some v => pure v
      | none => throwE .danglingReference
  -- `cloneGlobalValueWithLinkage`, early-return part: a value already
  -- living in the destination module is passed through unchanged, and a
  -- value already cloned is reused from the environment; otherwise the
  -- candidate scan takes over.
  cloneGlobalValueWithLinkage ctx originalVal linkage := fun s =>
    match originalVal with
    | some ov =>
      if ov ∈ s.rootChildren then .ok (some ov, s)
      else
        match findClonedValue s.env ov with
        | some c => .ok (some c, s)
        | none => next.cloneGlobalValueWithLinkageRest ctx originalVal linkage s
    | none => next.cloneGlobalValueWithLinkageRest ctx originalVal linkage s
  -- Candidate-scan part of `cloneGlobalValueWithLinkage`: without a linkage
  -- the value is local and cloned directly; with a linkage the symbol
  -- dictionary is consulted — no entry is the fatal "no matching values
  -- registered" defect (or a silent null when no original value was
  -- supplied) — and the best candidate under `isBetterForTarget` is cloned,
  -- registered under every same-name symbol.
  cloneGlobalValueWithLinkageRest ctx originalVal linkage :=
    match linkage with
    | none =>
      match originalVal with
      | some ov => some <$> next.cloneGlobalValueImpl ctx ov { originalVal := some ov }
      | none => throwE .danglingReference
    | some name =>
      match lookupAssoc ctx.symbols name with
      | none =>
        match originalVal with
        | none => pure none
        | some _ => throwE .noMatchingValuesRegistered
      | some [] => throwE .danglingReference
      | some (best0 :: rest) =>
        let bestVal := pickBest (isBetterForTargetH f ctx.targetName ctx.srcHeap) best0 rest
        match originalVal with
        | none => fun s =>
          match findClonedValue s.env bestVal with
          | some c => .ok (some c, s)
          | none => (some <$> next.cloneGlobalValueImpl ctx bestVal { sym := best0 :: rest }) s
        | some _ => some <$> next.cloneGlobalValueImpl ctx bestVal { sym := best0 :: rest }
  -- `cloneGlobalValueImpl`: clone at module scope, then move the clone to
  -- the end of the module's children.
  cloneGlobalValueImpl ctx origId ov := do
    let c ← next.cloneInst ctx none origId ov
    moveToEndOf none c
    pure c
  -- `cloneInst`: special-cased kinds dispatch to their `clone...Impl`; the
  -- default path builds the clone with its cloned full type, registers it,
  -- clones the operands, adds it at the insertion position and copies the
  -- decorations.  Note the full type is cloned before the new instruction
  -- is registered.
  cloneInst ctx insertInto origId ov :=
    match lookupAssoc ctx.srcHeap origId with
    | none => throwE .danglingReference
    | some i =>
      match i.op with
      | .func => next.cloneFuncImpl ctx insertInto origId ov
      | .witnessTable => next.cloneWitnessTableImpl ctx insertInto origId ov
      | .structType => next.cloneStructTypeImpl ctx insertInto origId ov
      | .generic => next.cloneGenericImpl ctx insertInto origId ov
      | .structKey => next.cloneStructKeyImpl ctx insertInto origId ov
      | _ => do
        let t ← next.cloneTypeOpt ctx i.typeRef
        let cloned ← allocInst { op := i.op, typeRef := t, litVal := i.litVal }
        registerClonedValuesM cloned ov
        next.cloneOperands ctx cloned i.operands
        appendChildTo insertInto cloned
        copyDecorationsM cloned i.decorations
        pure cloned
  -- `cloneFuncImpl`: create the empty clone, register it under all its
  -- originals, and only then clone the function's content.
  cloneFuncImpl ctx insertInto origId ov := do
    let cloned ← allocInst { op := .func }
    appendChildTo insertInto cloned
    registerClonedValuesM cloned ov
    next.cloneFunctionCommon ctx insertInto cloned origId
    pure cloned
  -- `cloneFunctionCommon`: clone the full type, clone decorations and body,
  -- move the clone to the end of its parent, and run the debug duplicate
  -- check when the clone carries a linkage.
  cloneFunctionCommon ctx insertInto clonedId origId :=
    match lookupAssoc ctx.srcHeap origId with
    | none => throwE .danglingReference
    | some of => do
      let t ← next.cloneTypeOpt ctx of.typeRef
      modifyInst clonedId fun i => { i with typeRef := t }
      next.cloneGlobalValueWithCodeCommon ctx clonedId origId
      moveToEndOf insertInto clonedId
      checkFuncDuplicateM ctx.debug clonedId
  -- `cloneGlobalValueWithCodeCommon`: copy decorations, then create and
  -- register all block shells first — so forward branches between blocks
  -- resolve — and only then clone each block's contents in order.
  cloneGlobalValueWithCodeCommon ctx clonedId origId :=
    match lookupAssoc ctx.srcHeap origId with
    | none => throwE .danglingReference
    | some oi => do
      copyDecorationsM clonedId oi.decorations
      let pairs ← next.cloneBlockShells ctx clonedId (blocksOf ctx.srcHeap oi)
      next.cloneBlockContents ctx pairs
  -- Phase one of block cloning: create a clone shell for every original
  -- block, add it to the cloned parent, and register it in the environment;
  -- return the original-to-clone block pairing.
  cloneBlockShells ctx clonedParent obs :=
    match obs with
    | [] => pure []
    | ob :: rest => do
      let cb ← allocInst { op := .block }
      appendChildTo (some clonedParent) cb
      registerClonedValueM cb ob
      let pairs ← next.cloneBlockShells ctx clonedParent rest
      pure ((ob, cb) :: pairs)
  -- Phase two of block cloning: clone each original block's instructions
  -- into the corresponding shell, in original order.
  cloneBlockContents ctx pairs :=
    match pairs with
    | [] => pure ()
    | (ob, cb) :: rest =>
      match lookupAssoc ctx.srcHeap ob with
      | none => throwE .danglingReference
      | some obi => do
        next.cloneInstList ctx cb obi.children
        next.cloneBlockContents ctx rest
  -- `cloneSimpleGlobalValueImpl`: optionally register the clone, then clone
  -- decorations and children.
  cloneSimpleGlobalValueImpl ctx origId ov clonedId registerValue := do
    if registerValue then registerClonedValuesM clonedId ov else pure ()
    match lookupAssoc ctx.srcHeap origId with
    | none => throwE .danglingReference
    | some oi => do
      copyDecorationsM clonedId oi.decorations
      next.cloneInstList ctx clonedId oi.children
  -- `cloneWitnessTableImpl` (fresh destination table, registration on).
  cloneWitnessTableImpl ctx insertInto origId ov := do
    let cloned ← allocInst { op := .witnessTable }
    appendChildTo insertInto cloned
    next.cloneSimpleGlobalValueImpl ctx origId ov cloned true
    pure cloned
  -- `cloneStructTypeImpl`.
  cloneStructTypeImpl ctx insertInto origId ov := do
    let cloned ← allocInst { op := .structType }
    appendChildTo insertInto cloned
    next.cloneSimpleGlobalValueImpl ctx origId ov cloned true
    pure cloned
  -- `cloneStructKeyImpl`.
  cloneStructKeyImpl ctx insertInto origId ov := do
    let cloned ← allocInst { op := .structKey }
    appendChildTo insertInto cloned
    next.cloneSimpleGlobalValueImpl ctx origId ov cloned true
    pure cloned
  -- `cloneGenericImpl`: create and register the clone, then clone the code
  -- that computes its result value.
  cloneGenericImpl ctx insertInto origId ov := do
    let cloned ← allocInst { op := .generic }
    appendChildTo insertInto cloned
    registerClonedValuesM cloned ov
    next.cloneGlobalValueWithCodeCommon ctx cloned origId
    pure cloned

/-- The fuel-indexed cloning family: at fuel 0 every operation reports
`outOfFuel`; at fuel `f + 1` each operation runs one `cloneStep`, with
recursive calls at fuel `f`. -/
def cloneFns : Nat → CloneFns
  | 0 => cloneFnsZero
  | f + 1 => cloneStep f (cloneFns f)

/-- Memoized clone of a value (`cloneValue` in the source). -/
def cloneValueF (fuel : Nat) (ctx : LinkCtx) (origId : Nat) : SpecM Nat :=
  (cloneFns fuel).cloneValue ctx origId

/-- Clone of an optional type reference (`cloneType` in the source). -/
def cloneTypeOptF (fuel : Nat) (ctx : LinkCtx) (t : Option Nat) : SpecM (Option Nat) :=
  (cloneFns fuel).cloneTypeOpt ctx t

/-- The `IRSpecContext::maybeCloneValue` dispatch. -/
def maybeCloneValueF (fuel : Nat) (ctx : LinkCtx) (origId : Nat) : SpecM Nat :=
  (cloneFns fuel).maybeCloneValue ctx origId

/-- The operand-cloning loop of `maybeCloneValue` and `cloneInst`. -/
def cloneOperandsF (fuel : Nat) (ctx : LinkCtx) (cloned : Nat) (ops : List Nat) : SpecM Unit :=
  (cloneFns fuel).cloneOperands ctx cloned ops

/-- The child-cloning loop shared by the simple-global and block-content
paths. -/
def cloneInstListF (fuel : Nat) (ctx : LinkCtx) (clonedParent : Nat) (insts : List Nat) : SpecM Unit :=
  (cloneFns fuel).cloneInstList ctx clonedParent insts

/-- Clone a global value (`cloneGlobalValue` in the source). -/
def cloneGlobalValueF (fuel : Nat) (ctx : LinkCtx) (origId : Nat) : SpecM Nat :=
  (cloneFns fuel).cloneGlobalValue ctx origId

/-- Clone a global value with a known linkage
(`cloneGlobalValueWithLinkage` in the source). -/
def cloneGlobalValueWithLinkageF (fuel : Nat) (ctx : LinkCtx)
    (originalVal : Option Nat) (linkage : Option String) : SpecM (Option Nat) :=
  (cloneFns fuel).cloneGlobalValueWithLinkage ctx originalVal linkage

/-- Candidate-scan part of `cloneGlobalValueWithLinkage`. -/
def cloneGlobalValueWithLinkageRestF (fuel : Nat) (ctx : LinkCtx)
    (originalVal : Option Nat) (linkage : Option String) : SpecM (Option Nat) :=
  (cloneFns fuel).cloneGlobalValueWithLinkageRest ctx originalVal linkage

/-- Clone a chosen global value into the destination module
(`cloneGlobalValueImpl` in the source). -/
def cloneGlobalValueImplF (fuel : Nat) (ctx : LinkCtx) (origId : Nat)
    (ov : IROriginalValuesForClone) : SpecM Nat :=
  (cloneFns fuel).cloneGlobalValueImpl ctx origId ov

/-- Clone one instruction (`cloneInst` in the source). -/
def cloneInstF (fuel : Nat) (ctx : LinkCtx) (insertInto : Option Nat) (origId : Nat)
    (ov : IROriginalValuesForClone) : SpecM Nat :=
  (cloneFns fuel).cloneInst ctx insertInto origId ov

/-- Clone a function (`cloneFuncImpl` in the source). -/
def cloneFuncImplF (fuel : Nat) (ctx : LinkCtx) (insertInto : Option Nat) (origId : Nat)
    (ov : IROriginalValuesForClone) : SpecM Nat :=
  (cloneFns fuel).cloneFuncImpl ctx insertInto origId ov

/-- Shared function-cloning steps (`cloneFunctionCommon` in the source). -/
def cloneFunctionCommonF (fuel : Nat) (ctx : LinkCtx) (insertInto : Option Nat)
    (clonedId origId : Nat) : SpecM Unit :=
  (cloneFns fuel).cloneFunctionCommon ctx insertInto clonedId origId

/-- Clone the code of a global value with code
(`cloneGlobalValueWithCodeCommon` in the source). -/
def cloneGlobalValueWithCodeCommonF (fuel : Nat) (ctx : LinkCtx) (clonedId origId : Nat) : SpecM Unit :=
  (cloneFns fuel).cloneGlobalValueWithCodeCommon ctx clonedId origId

/-- Phase one of block cloning (shell creation and registration). -/
def cloneBlockShellsF (fuel : Nat) (ctx : LinkCtx) (clonedParent : Nat)
    (obs : List Nat) : SpecM (List (Nat × Nat)) :=
  (cloneFns fuel).cloneBlockShells ctx clonedParent obs

/-- Phase two of block cloning (content cloning). -/
def cloneBlockContentsF (fuel : Nat) (ctx : LinkCtx) (pairs : List (Nat × Nat)) : SpecM Unit :=
  (cloneFns fuel).cloneBlockContents ctx pairs

/-- Shared cloning for simple global values
(`cloneSimpleGlobalValueImpl` in the source). -/
def cloneSimpleGlobalValueImplF (fuel : Nat) (ctx : LinkCtx) (origId : Nat)
    (ov : IROriginalValuesForClone) (clonedId : Nat) (registerValue : Bool) : SpecM Unit :=
  (cloneFns fuel).cloneSimpleGlobalValueImpl ctx origId ov clonedId registerValue

/-- Clone a witness table (`cloneWitnessTableImpl` in the source). -/
def cloneWitnessTableImplF (fuel : Nat) (ctx : LinkCtx) (insertInto : Option Nat)
    (origId : Nat) (ov : IROriginalValuesForClone) : SpecM Nat :=
  (cloneFns fuel).cloneWitnessTableImpl ctx insertInto origId ov

/-- Clone a struct type (`cloneStructTypeImpl` in the source). -/
def cloneStructTypeImplF (fuel : Nat) (ctx : LinkCtx) (insertInto : Option Nat)
    (origId : Nat) (ov : IROriginalValuesForClone) : SpecM Nat :=
  (cloneFns fuel).cloneStructTypeImpl ctx insertInto origId ov

/-- Clone a struct key (`cloneStructKeyImpl` in the source). -/
def cloneStructKeyImplF (fuel : Nat) (ctx : LinkCtx) (insertInto : Option Nat)
    (origId : Nat) (ov : IROriginalValuesForClone) : SpecM Nat :=
  (cloneFns fuel).cloneStructKeyImpl ctx insertInto origId ov

/-- Clone a generic (`cloneGenericImpl` in the source). -/
def cloneGenericImplF (fuel : Nat) (ctx : LinkCtx) (insertInto : Option Nat)
    (origId : Nat) (ov : IROriginalValuesForClone) : SpecM Nat :=
  (cloneFns fuel).cloneGenericImpl ctx insertInto origId ov

/-- Register one global instruction in the symbol dictionary
(`insertGlobalValueSymbol`): instructions without a linkage decoration are
skipped; a fresh name gets a singleton list; an existing name has the new
symbol spliced in directly behind the list head. -/
def insertGlobalValueSymbolF (srcHeap : List (Nat × Inst))
    (symbols : List (String × List Nat)) (gv : Nat) : List (String × List Nat) :=
  match lookupAssoc srcHeap gv with
  | none => symbols
  | some i =>
    match findLinkageName i with
    | none => symbols
    | some name =>
      match lookupAssoc symbols name with
      | some _ => symbols.map fun p => if p.1 = name then (p.1, insertSymbolList gv p.2) else p
      | none => symbols ++ [(name, [gv])]

/-- Register all global instructions of one module, in module order
(`insertGlobalValueSymbols`). -/
def insertGlobalValueSymbolsF (srcHeap : List (Nat × Inst))
    (symbols : List (String × List Nat)) (moduleGlobals : List Nat) : List (String × List Nat) :=
  moduleGlobals.foldl (insertGlobalValueSymbolF srcHeap) symbols

/-- Build the symbol dictionary for the whole request: the program's own IR
module first, then each dependency module in list order (the two
`insertGlobalValueSymbols` calls in `linkIR`). -/
def buildSymbols (srcHeap : List (Nat × Inst)) (programModule : List Nat)
    (deps : List (List Nat)) : List (String × List Nat) :=
  deps.foldl (insertGlobalValueSymbolsF srcHeap)
    (insertGlobalValueSymbolsF srcHeap [] programModule)

/-- Read a destination instruction, failing on a dangling reference. -/
def getDestInstM (id : Nat) : SpecM Inst := fun s =>
  match lookupAssoc s.destHeap id with
  | some i => .ok (i, s)
  | none => .error .danglingReference

/-- Append a decoration to a destination instruction (the
`add...Decoration` builder calls). -/
def addDecorationM (id : Nat) (d : Decoration) : SpecM Unit :=
  modifyInst id fun i => { i with decorations := i.decorations ++ [d] }

/-- Attach the positional parameter layouts to the parameters of the entry
point's first block; running past the end of the layout list is the fatal
"too many parameters" defect. -/
def attachParamLayoutsM : List Nat → List Nat → SpecM Unit
  | [], _ => pure ()
  | _ :: _, [] => throwE .tooManyParameters
  | p :: ps, l :: ls => do
    addDecorationM p (.layout l)
    attachParamLayoutsM ps ls

/-- Parameters of the first block of a destination function (the
`getFirstParam`/`getNextParam` iteration). -/
def getParamsOfFirstBlockM (funcId : Nat) : SpecM (List Nat) := fun s =>
  match lookupAssoc s.destHeap funcId with
  | none => .error .danglingReference
  | some fi =>
    match (blocksOf s.destHeap fi).head? with
    | none => .ok ([], s)
    | some blkId =>
      match lookupAssoc s.destHeap blkId with
      | none => .error .danglingReference
      | some blk => .ok (blk.children.filter (isParamIn s.destHeap), s)

/-- Specialize the IR for one entry point (`specializeIRForEntryPoint`):
resolve the entry point's mangled name in the symbol dictionary — a miss is
the fatal "no matching IR symbol" defect — clone the found global value,
transfer a bind-existential-slots decoration from the original when the
clone lacks one, require the clone to be a function, keep it alive, attach
the entry-point layout, and attach the per-parameter layouts positionally.
A clone that is still an `IRSpecialize` would be handed to
`specializeGeneric`, which is defined outside this translation unit;
modelled from the spec (§4.4 step 3) only as far as the claims need it,
namely as a marker that this path was taken. -/
def specializeIRForEntryPointF (fuel : Nat) (ctx : LinkCtx) (entryPointName : String)
    (entryPointLayout : Nat) (paramLayouts : List Nat) : SpecM Nat :=
  match lookupAssoc ctx.symbols entryPointName with
  | none => throwE .noMatchingIRSymbol
  | some [] => throwE .danglingReference
  | some (originalValId :: _) =>
    match lookupAssoc ctx.srcHeap originalValId with
    | none => throwE .danglingReference
    | some oi => do
      let clonedVal ← cloneGlobalValueF fuel ctx originalValId
      let ci ← getDestInstM clonedVal
      if ci.op = .specialize then throwE .unsupportedSpecialize else pure ()
      if oi.decorations.any (fun d => decide (d = .bindExistentialSlots)) then do
        let ci1 ← getDestInstM clonedVal
        if ci1.decorations.any (fun d => decide (d = .bindExistentialSlots)) then pure ()
        else modifyInst clonedVal fun i =>
          { i with decorations := .bindExistentialSlots :: i.decorations }
      else pure ()
      let ci2 ← getDestInstM clonedVal
      if ci2.op = .func then pure () else throwE .expectedEntryPointFunc
      if ci2.decorations.any (fun d => decide (d = .keepAlive)) then pure ()
      else addDecorationM clonedVal .keepAlive
      addDecorationM clonedVal (.layout entryPointLayout)
      let params ← getParamsOfFirstBlockM clonedVal
      attachParamLayoutsM params paramLayouts
      pure clonedVal

/-- The pre-pass of `linkIR` that clones every symbol whose first registered
instruction is a witness table, whether or not the entry point references
it. -/
def witnessTablePassF (fuel : Nat) (ctx : LinkCtx) : List (String × List Nat) → SpecM Unit
  | [] => pure ()
  | (_, syms) :: rest =>
    (match syms with
     | [] => pure ()
     | h :: _ =>
       match lookupAssoc ctx.srcHeap h with
       | none => throwE .danglingReference
       | some hi =>
         if hi.op = .witnessTable then do
           let _ ← cloneGlobalValueF fuel ctx h
           pure ()
         else pure ()) >>= fun _ => witnessTablePassF fuel ctx rest

/-- The post-pass of `linkIR` that copies over every
`IRBindGlobalGenericParam` of the program's own module, referenced or
not. -/
def bindGlobalGenericParamPassF (fuel : Nat) (ctx : LinkCtx) : List Nat → SpecM Unit
  | [] => pure ()
  | id :: rest =>
    (match lookupAssoc ctx.srcHeap id with
     | none => throwE .danglingReference
     | some i =>
       if i.op = .bindGlobalGenericParam then do
         let _ ← cloneValueF fuel ctx id
         pure ()
       else pure ()) >>= fun _ => bindGlobalGenericParamPassF fuel ctx rest

/-- The post-pass of `linkIR` that copies over every
`kIROp_BindGlobalExistentialSlots` instruction of the program's own
module. -/
def bindGlobalExistentialSlotsPassF (fuel : Nat) (ctx : LinkCtx) : List Nat → SpecM Unit
  | [] => pure ()
  | id :: rest =>
    (match lookupAssoc ctx.srcHeap id with
     | none => throwE .danglingReference
     | some i =>
       if i.op = .bindGlobalExistentialSlots then do
         let _ ← cloneValueF fuel ctx id
         pure ()
       else pure ()) >>= fun _ => bindGlobalExistentialSlotsPassF fuel ctx rest

/-- The tagged-union layout pass of `linkIR`: for each tagged-union type
layout, look its mangled type name up in the symbol dictionary, and when the
type has been cloned, attach the layout decoration to the clone. -/
def taggedUnionPassM (ctx : LinkCtx) : List (String × Nat) → SpecM Unit
  | [] => pure ()
  | (name, layoutTag) :: rest =>
    (fun s =>
      match lookupAssoc ctx.symbols name with
      | none => .ok ((), s)
      | some [] => .ok ((), s)
      | some (h :: _) =>
        match findClonedValue s.env h with
        | none => .ok ((), s)
        | some clonedType => addDecorationM clonedType (.layout layoutTag) s)
    >>= fun _ => taggedUnionPassM ctx rest

/-- Inputs of one `linkIR` request: the shared source heap, the program's
module and its dependency modules as ordered lists of global instruction
ids, the target, the requested entry point's mangled name, and the
externally computed layout records (modelled as opaque tags).  The
`globalVarLayouts` dictionary of the source is consumed only by
`cloneGlobalParamImpl`, whose instruction kind is outside this model. -/
structure LinkInput where
  srcHeap : List (Nat × Inst)
  programModule : List Nat
  dependencyModules : List (List Nat) := []
  targetName : String
  entryPointName : String
  entryPointLayout : Nat := 0
  paramLayouts : List Nat := []
  taggedUnionLayouts : List (String × Nat) := []
  debug : Bool := true
deriving Repr

/-- Result of linking: the destination module (heap plus ordered module
children) and the entry-point instruction. -/
structure LinkedIR where
  destHeap : List (Nat × Inst)
  rootChildren : List Nat
  entryPoint : Nat
deriving DecidableEq, Repr

/-- First id strictly above every source-heap id, so destination
instructions never collide with source instructions. -/
def freshIdBase (heap : List (Nat × Inst)) : Nat :=
  heap.foldl (fun m p => max m p.1) 0 + 1

/-- The read-only context a `linkIR` request sets up: shared source heap,
symbol dictionary built from the program module and then each dependency
module, target name and debug flag. -/
def linkCtxOf (inp : LinkInput) : LinkCtx :=
  { srcHeap := inp.srcHeap,
    symbols := buildSymbols inp.srcHeap inp.programModule inp.dependencyModules,
    targetName := inp.targetName, debug := inp.debug }

/-- The fresh destination-module state a `linkIR` request starts from: empty
module, ids above every source id, one empty root environment frame. -/
def linkSt0 (inp : LinkInput) : SpecState :=
  { destHeap := [], rootChildren := [], nextId := freshIdBase inp.srcHeap, env := [[]] }

/-- The `linkIR` driver: build the symbol dictionary from the program module
and its dependencies, clone all unreferenced witness tables, specialize the
entry point (which recursively copies everything it references), copy the
unreferenced bind instructions of the program module, attach tagged-union
layouts, and package the finished module. -/
def linkIRF (fuel : Nat) (inp : LinkInput) : Except LinkError LinkedIR :=
  let ctx := linkCtxOf inp
  let run : SpecM Nat := do
    witnessTablePassF fuel ctx ctx.symbols
    let ep ← specializeIRForEntryPointF fuel ctx inp.entryPointName
      inp.entryPointLayout inp.paramLayouts
    bindGlobalGenericParamPassF fuel ctx inp.programModule
    bindGlobalExistentialSlotsPassF fuel ctx inp.programModule
    taggedUnionPassM ctx inp.taggedUnionLayouts
    pure ep
  match run (linkSt0 inp) with
  | .ok (ep, st) =>
    .ok { destHeap := st.destHeap, rootChildren := st.rootChildren, entryPoint := ep }
  | .error e => .error e

/-- Number of module children carrying a given linkage name (used to state
the single-definition invariant over concrete outputs). -/
def countLinkageRoots (heap : List (Nat × Inst)) (roots : List Nat) (name : String) : Nat :=
  (roots.filter fun id => hasLinkageNamed heap id name).length

/-- Number of module children with a given operation tag. -/
def countOpRoots (heap : List (Nat × Inst)) (roots : List Nat) (op : Op) : Nat :=
  (roots.filter fun id =>
    match lookupAssoc heap id with
    | some i => decide (i.op = op)
    | none => false).length

/-- Source heap of the mutual-recursion scenario: function `A` (id 1, body
block 10) calls function `B` (id 2, body block 20) through call instruction
11, and `B` calls `A` back through call instruction 21. -/
def srcMutual : List (Nat × Inst) :=
  [ (1, { op := .func, decorations := [.linkage "A"], children := [10] }),
    (10, { op := .block, children := [11] }),
    (11, { op := .call, operands := [2] }),
    (2, { op := .func, decorations := [.linkage "B"], children := [20] }),
    (20, { op := .block, children := [21] }),
    (21, { op := .call, operands := [1] }) ]

/-- Context of the mutual-recursion scenario. -/
def ctxMutual : LinkCtx :=
  { srcHeap := srcMutual,
    symbols := buildSymbols srcMutual [1, 2] [],
    targetName := "hlsl", debug := true }

/-- Fresh initial state used by the cloning scenarios (destination ids start
at 100, one empty root environment frame). -/
def stFresh : SpecState := { nextId := 100, env := [[]] }

/-- Final state of cloning `A` in the mutual-recursion scenario (checked
against the run in C4's theorem): exactly one clone of `A` (100) and one of
`B` (103), whose bodies' call instructions reference each other's clone. -/
def mutualFinalState : SpecState :=
  { destHeap :=
      [ (105, { op := .call, operands := [100] }),
        (104, { op := .block, children := [105] }),
        (103, { op := .func, decorations := [.linkage "B"], children := [104] }),
        (102, { op := .call, operands := [103] }),
        (101, { op := .block, children := [102] }),
        (100, { op := .func, decorations := [.linkage "A"], children := [101] }) ],
    rootChildren := [103, 100],
    nextId := 106,
    env := [[(21, 105), (20, 104), (2, 103), (11, 102), (10, 101), (1, 100)]] }

/-- Source heap of the self-reference scenario: function `S` (id 5, body
block 50) calls itself through call instruction 51. -/
def srcSelfRec : List (Nat × Inst) :=
  [ (5, { op := .func, decorations := [.linkage "S"], children := [50] }),
    (50, { op := .block, children := [51] }),
    (51, { op := .call, operands := [5] }) ]

/-- Context of the self-reference scenario. -/
def ctxSelfRec : LinkCtx :=
  { srcHeap := srcSelfRec,
    symbols := buildSymbols srcSelfRec [5] [],
    targetName := "hlsl", debug := true }

/-- Final state of cloning `S` in the self-reference scenario (checked
against the run in C7's amended theorem): one clone of `S` (100) whose
body's call instruction references clone 100 itself — the mid-clone
re-request resolved through the environment memo. -/
def selfRecFinalState : SpecState :=
  { destHeap :=
      [ (102, { op := .call, operands := [100] }),
        (101, { op := .block, children := [102] }),
        (100, { op := .func, decorations := [.linkage "S"], children := [101] }) ],
    rootChildren := [100],
    nextId := 103,
    env := [[(51, 102), (50, 101), (5, 100)]] }

/-- Source heap of the type-cycle scenario: instruction 3 is an ordinary
hoistable instruction whose full type refers back to instruction 3
itself, so its clone recurses into itself before anything is registered. -/
def srcTypeCycle : List (Nat × Inst) := [ (3, { op := .otherOp 0, typeRef := some 3 }) ]

/-- Context of the type-cycle scenario. -/
def ctxTypeCycle : LinkCtx :=
  { srcHeap := srcTypeCycle, symbols := [], targetName := "hlsl", debug := true }

/-- Source heap of the linking scenario: the program module defines function
`F` (id 1, with a body) and an unreferenced witness table `W` (id 3); a
dependency module declares a second, bodyless `F` (id 2). -/
def srcLink : List (Nat × Inst) :=
  [ (1, { op := .func, decorations := [.linkage "F"], children := [10] }),
    (10, { op := .block, children := [] }),
    (2, { op := .func, decorations := [.linkage "F"] }),
    (3, { op := .witnessTable, decorations := [.linkage "W"] }) ]

/-- Link request of the linking scenario: entry point `F` on target
`hlsl`. -/
def inpLink : LinkInput :=
  { srcHeap := srcLink, programModule := [1, 3], dependencyModules := [[2]],
    targetName := "hlsl", entryPointName := "F" }

/-- Destination state of the linking scenario after the witness-table
pre-pass (checked by the staged run in the claim theorems): the witness
table `W` is already cloned before the entry point is touched. -/
def sLink1 : SpecState :=
  { destHeap := [(11, { op := .witnessTable, decorations := [.linkage "W"] })],
    rootChildren := [11], nextId := 12, env := [[(3, 11)]] }

/-- Destination state of the linking scenario after entry-point
specialization: one clone (12) of `F` carrying the linkage, keep-alive and
layout decorations, with both same-name originals 1 and 2 registered to
clone 12 in the environment. -/
def sLink2 : SpecState :=
  { destHeap :=
      [ (13, { op := .block }),
        (12, { op := .func,
               decorations := [.linkage "F", .keepAlive, .layout 0],
               children := [13] }),
        (11, { op := .witnessTable, decorations := [.linkage "W"] }) ],
    rootChildren := [11, 12],
    nextId := 14,
    env := [[(10, 13), (2, 12), (1, 12), (3, 11)]] }

/-- The linking scenario's request with an entry-point name (`H`) that no
module defines. -/
def inpUnresolved : LinkInput := { inpLink with entryPointName := "H" }

/-- Output of the linking scenario. -/
def linkOut : LinkedIR :=
  { destHeap := sLink2.destHeap, rootChildren := sLink2.rootChildren, entryPoint := 12 }

/-- Source heap of the witness-table sweep scenario: entry function `F`
(id 1) references nothing; witness tables `W1` (id 3) and `W2` (id 4) and a
struct type `S` (id 6) are all unreferenced. -/
def srcSweep : List (Nat × Inst) :=
  [ (1, { op := .func, decorations := [.linkage "F"], children := [10] }),
    (10, { op := .block, children := [] }),
    (3, { op := .witnessTable, decorations := [.linkage "W1"] }),
    (4, { op := .witnessTable, decorations := [.linkage "W2"] }),
    (6, { op := .structType, decorations := [.linkage "S"] }) ]

/-- Link request of the witness-table sweep scenario. -/
def inpSweep : LinkInput :=
  { srcHeap := srcSweep, programModule := [1, 3, 4, 6], dependencyModules := [],
    targetName := "hlsl", entryPointName := "F" }

/-- Destination state of the sweep scenario after the witness-table
pre-pass: both witness tables are cloned, the struct type is not. -/
def sSweep1 : SpecState :=
  { destHeap :=
      [ (12, { op := .witnessTable, decorations := [.linkage "W2"] }),
        (11, { op := .witnessTable, decorations := [.linkage "W1"] }) ],
    rootChildren := [11, 12], nextId := 13, env := [[(4, 12), (3, 11)]] }

/-- Destination state of the sweep scenario after entry-point
specialization. -/
def sSweep2 : SpecState :=
  { destHeap :=
      [ (14, { op := .block }),
        (13, { op := .func,
               decorations := [.linkage "F", .keepAlive, .layout 0],
               children := [14] }),
        (12, { op := .witnessTable, decorations := [.linkage "W2"] }),
        (11, { op := .witnessTable, decorations := [.linkage "W1"] }) ],
    rootChildren := [11, 12, 13],
    nextId := 15,
    env := [[(10, 14), (1, 13), (4, 12), (3, 11)]] }

/-- Output of the witness-table sweep scenario. -/
def sweepOut : LinkedIR :=
  { destHeap := sSweep2.destHeap, rootChildren := sSweep2.rootChildren, entryPoint := 13 }

/-- Heap of the generic-lookthrough scenario: generic 7 whose first block 70
ends in a return (71) of function 72, which is specialized for target
`hlsl`. -/
def heapLookthrough : List (Nat × Inst) :=
  [ (7, { op := .generic, decorations := [.targetDeco "glsl"], children := [70] }),
    (70, { op := .block, children := [72, 71] }),
    (72, { op := .func, decorations := [.targetDeco "hlsl"] }),
    (71, { op := .returnVal, operands := [72] }) ]

deriving instance DecidableEq for Except

/-- Running a bind: run the first computation, then feed its result to the
second. -/
theorem SpecM.run_bind (m : SpecM α) (f : α → SpecM β) (s : SpecState) :
    (m >>= f) s =
      match m s with
      | .ok (a, s') => f a s'
      | .error e => .error e := rfl

/-- Running `pure` leaves the state unchanged. -/
theorem SpecM.run_pure (a : α) (s : SpecState) : (pure a : SpecM α) s = .ok (a, s) := rfl

/-- A failing first computation fails the whole bind. -/
theorem SpecM.bindF_error {m : SpecM α} {f : α → SpecM β} {s : SpecState} {e : LinkError}
    (h : m s = .error e) : (m >>= f) s = .error e := by
  show SpecM.bindF m f s = .error e
  unfold SpecM.bindF
  rw [h]

/-- A succeeding first computation hands its result to the second. -/
theorem SpecM.bindF_ok {m : SpecM α} {f : α → SpecM β} {s s' : SpecState} {a : α}
    (h : m s = .ok (a, s')) : (m >>= f) s = f a s' := by
  show SpecM.bindF m f s = f a s'
  unfold SpecM.bindF
  rw [h]

/-- Decomposition of `linkIRF` into its passes: when each pass succeeds from
the previous pass's state, the link result packages the final state and the
entry point.  Used to establish concrete link runs stage by stage. -/
theorem linkIRF_staged (fuel : Nat) (inp : LinkInput) (s1 s2 s3 s4 s5 : SpecState) (ep : Nat)
    (h1 : witnessTablePassF fuel (linkCtxOf inp) (linkCtxOf inp).symbols (linkSt0 inp)
      = .ok ((), s1))
    (h2 : specializeIRForEntryPointF fuel (linkCtxOf inp) inp.entryPointName
      inp.entryPointLayout inp.paramLayouts s1 = .ok (ep, s2))
    (h3 : bindGlobalGenericParamPassF fuel (linkCtxOf inp) inp.programModule s2 = .ok ((), s3))
    (h4 : bindGlobalExistentialSlotsPassF fuel (linkCtxOf inp) inp.programModule s3 = .ok ((), s4))
    (h5 : taggedUnionPassM (linkCtxOf inp) inp.taggedUnionLayouts s4 = .ok ((), s5)) :
    linkIRF fuel inp
      = .ok { destHeap := s5.destHeap, rootChildren := s5.rootChildren, entryPoint := ep } := by
  unfold linkIRF
  dsimp only
  rw [SpecM.bindF_ok h1, SpecM.bindF_ok h2, SpecM.bindF_ok h3, SpecM.bindF_ok h4,
    SpecM.bindF_ok h5, SpecM.run_pure]

/-- The three lexicographically compared criteria of `isBetterForTarget`
collapse to a single numeric rank comparison. -/
theorem isBetterForTarget_eq_rank (t : String) (a b : IRVal) :
    isBetterForTarget t a b = decide (rankVal t a > rankVal t b) := by
  have key : ∀ (ln lo : TargetSpecializationLevel) (en eo dn dd : Bool),
      (if ln ≠ lo then decide (ln.toNat > lo.toNat)
       else if en ≠ eo then en
       else if dn ≠ dd then dn
       else false)
      = decide (4 * ln.toNat + 2 * (if en then 1 else 0) + (if dn then 1 else 0)
          > 4 * lo.toNat + 2 * (if eo then 1 else 0) + (if dd then 1 else 0)) := by decide
  simpa [isBetterForTarget, rankVal] using
    key (getTargetSpecialiationLevel a t) (getTargetSpecialiationLevel b t)
      (hasExportDecoration a) (hasExportDecoration b) (isDefinition a) (isDefinition b)

/-- The best-candidate scan returns an element of the candidate list. -/
theorem pickBest_mem (better : α → α → Bool) (head : α) (l : List α) :
    pickBest better head l ∈ head :: l := by
  induction l generalizing head with
  | nil => simp [pickBest]
  | cons x xs ih =>
    have hstep : pickBest better head (x :: xs)
        = pickBest better (if better x head then x else head) xs := rfl
    rw [hstep]
    by_cases hxy : better x head = true
    · rw [if_pos hxy]
      rcases List.mem_cons.mp (ih x) with h1 | h1 <;> simp [h1]
    · rw [if_neg hxy]
      rcases List.mem_cons.mp (ih head) with h1 | h1 <;> simp [h1]

/-- When `better` is the comparison induced by a numeric key, the
best-candidate scan returns a candidate of maximal key. -/
theorem pickBest_max (key : α → Nat) (better : α → α → Bool)
    (hb : ∀ a b, better a b = decide (key a > key b)) (head : α) (l : List α) :
    ∀ c ∈ head :: l, key c ≤ key (pickBest better head l) := by
  induction l generalizing head with
  | nil =>
    intro c hc
    rcases List.mem_cons.mp hc with h1 | h1
    · simp [pickBest, h1]
    · simp at h1
  | cons x xs ih =>
    intro c hc
    have hstep : pickBest better head (x :: xs)
        = pickBest better (if better x head then x else head) xs := rfl
    rw [hstep]
    have hheadh : key head ≤ key (if better x head then x else head) := by
      split
      · next hxy => rw [hb] at hxy; simp at hxy; omega
      · exact Nat.le_refl _
    have hheadx : key x ≤ key (if better x head then x else head) := by
      split
      · exact Nat.le_refl _
      · next hxy => rw [hb] at hxy; simp at hxy; omega
    have hrec : key (if better x head then x else head)
        ≤ key (pickBest better (if better x head then x else head) xs) :=
      ih (if better x head then x else head) _ (List.mem_cons_self _ _)
    rcases List.mem_cons.mp hc with h1 | h1
    · subst h1; exact Nat.le_trans hheadh hrec
    · rcases List.mem_cons.mp h1 with h2 | h2
      · subst h2; exact Nat.le_trans hheadx hrec
      · exact ih (if better x head then x else head) c (List.mem_cons_of_mem _ h2)

/-- When one candidate has strictly larger key than every other, the
best-candidate scan returns it, in whatever order the list stores the
candidates. -/
theorem pickBest_eq_of_unique_max (key : α → Nat) (better : α → α → Bool)
    (hb : ∀ a b, better a b = decide (key a > key b)) (head : α) (l : List α)
    (v : α) (hv : v ∈ head :: l)
    (hmax : ∀ w ∈ head :: l, w ≠ v → key w < key v) :
    pickBest better head l = v := by
  by_cases heq : pickBest better head l = v
  · exact heq
  · have h1 := hmax _ (pickBest_mem better head l) heq
    have h2 := pickBest_max key better hb head l v hv
    omega

/-- When every candidate has the same key, the best-candidate scan keeps the
head of the stored list. -/
theorem pickBest_of_all_tied (key : α → Nat) (better : α → α → Bool)
    (hb : ∀ a b, better a b = decide (key a > key b)) (head : α) (l : List α)
    (htied : ∀ w ∈ head :: l, key w = key head) :
    pickBest better head l = head := by
  induction l generalizing head with
  | nil => rfl
  | cons x xs ih =>
    have hx : key x = key head := htied x (List.mem_cons_of_mem _ (List.mem_cons_self _ _))
    have hfalse : better x head = false := by
      rw [hb]; simp; omega
    have hstep : pickBest better head (x :: xs)
        = pickBest better (if better x head then x else head) xs := rfl
    rw [hstep, if_neg (by simp [hfalse])]
    exact ih head fun w hw => by
      rcases List.mem_cons.mp hw with h1 | h1
      · exact htied w (by simp [h1])
      · exact htied w (by simp [List.mem_cons_of_mem, h1])

/-- Unfolding of the symbol-list builder: the first-inserted candidate stays
at the head, and every later insertion lands directly behind it, so the
stored list is the first candidate followed by the remaining candidates in
reverse insertion order. -/
theorem buildSymbolList_eq (g : α) (gs : List α) :
    buildSymbolList (g :: gs) = g :: gs.reverse := by
  have aux : ∀ (l : List α) (acc : List α),
      l.foldl (fun l gv => insertSymbolList gv l) (g :: acc)
        = g :: (l.reverse ++ acc) := by
    intro l
    induction l with
    | nil => intro acc; simp
    | cons x xs ih =>
      intro acc
      have : insertSymbolList x (g :: acc) = g :: x :: acc := rfl
      simp only [List.foldl_cons, this, ih (x :: acc), List.reverse_cons,
        List.append_assoc, List.cons_append, List.nil_append]
  simpa using aux gs []

/-- A candidate specialized for the active target ranks at least 8. -/
theorem rankVal_ge_of_target {t : String} {v : IRVal}
    (h : getTargetSpecialiationLevel v t = .specializedForTarget) : 8 ≤ rankVal t v := by
  unfold rankVal
  rw [h]
  simp only [TargetSpecializationLevel.toNat]
  split_ifs <;> omega

/-- An unspecialized candidate ranks in `[4, 8)`. -/
theorem rankVal_range_of_notSpecialized {t : String} {v : IRVal}
    (h : getTargetSpecialiationLevel v t = .notSpecialized) :
    4 ≤ rankVal t v ∧ rankVal t v < 8 := by
  unfold rankVal
  rw [h]
  simp only [TargetSpecializationLevel.toNat]
  split_ifs <;> omega

/-- A candidate specialized for a different target ranks below 4. -/
theorem rankVal_lt_of_other {t : String} {v : IRVal}
    (h : getTargetSpecialiationLevel v t = .specializedForOtherTarget) : rankVal t v < 4 := by
  unfold rankVal
  rw [h]
  simp only [TargetSpecializationLevel.toNat]
  split_ifs <;> omega

/-- C1: for every candidate list and active target, the variant selector's
scan returns a candidate of the list that no candidate outranks under
`isBetterForTarget` (target level first, then export over import, then
definition over declaration); in particular, among a target-marked, an
unmarked, and an other-target candidate — in any list order — it picks the
target-marked one, and between two unmarked candidates of equal export
status where exactly one is a definition, it picks the definition. -/
theorem C1_variantSelector_maximal (t : String) (head : IRVal) (rest : List IRVal) :
    (pickBest (isBetterForTarget t) head rest ∈ head :: rest
      ∧ ∀ c ∈ head :: rest, isBetterForTarget t c (pickBest (isBetterForTarget t) head rest) = false)
  ∧ (∀ (a b c h : IRVal) (l : List IRVal), (h :: l).Perm [a, b, c] →
      getTargetSpecialiationLevel a t = .specializedForTarget →
      getTargetSpecialiationLevel b t = .notSpecialized →
      getTargetSpecialiationLevel c t = .specializedForOtherTarget →
      pickBest (isBetterForTarget t) h l = a)
  ∧ (∀ (d e h : IRVal) (l : List IRVal), (h :: l).Perm [d, e] →
      getTargetSpecialiationLevel d t = .notSpecialized →
      getTargetSpecialiationLevel e t = .notSpecialized →
      hasExportDecoration d = hasExportDecoration e →
      isDefinition d = true → isDefinition e = false →
      pickBest (isBetterForTarget t) h l = d) := by
  refine ⟨⟨pickBest_mem _ _ _, ?_⟩, ?_, ?_⟩
  · intro c hc
    have h1 := pickBest_max (rankVal t) (isBetterForTarget t)
      (isBetterForTarget_eq_rank t) head rest c hc
    rw [isBetterForTarget_eq_rank]
    simp only [gt_iff_lt, decide_eq_false_iff_not, not_lt]
    exact h1
  · intro a b c h l hperm ha hb hc
    refine pickBest_eq_of_unique_max (rankVal t) (isBetterForTarget t)
      (isBetterForTarget_eq_rank t) h l a (hperm.mem_iff.mpr (by simp)) ?_
    intro w hw hne
    have hw3 : w ∈ [a, b, c] := hperm.mem_iff.mp hw
    have h8 := rankVal_ge_of_target ha
    simp only [List.mem_cons, List.not_mem_nil, or_false] at hw3
    rcases hw3 with rfl | rfl | rfl
    · exact absurd rfl hne
    · have := rankVal_range_of_notSpecialized hb
      omega
    · have := rankVal_lt_of_other hc
      omega
  · intro d e h l hperm hd he hexp hdefd hdefe
    refine pickBest_eq_of_unique_max (rankVal t) (isBetterForTarget t)
      (isBetterForTarget_eq_rank t) h l d (hperm.mem_iff.mpr (by simp)) ?_
    intro w hw hne
    have hw2 : w ∈ [d, e] := hperm.mem_iff.mp hw
    simp only [List.mem_cons, List.not_mem_nil, or_false] at hw2
    rcases hw2 with rfl | rfl
    · exact absurd rfl hne
    · unfold rankVal
      rw [hd, he, hexp, hdefd, hdefe]
      simp only [TargetSpecializationLevel.toNat]
      split_ifs <;> first | contradiction | omega

/-- Witness for C1: the target-marked candidate wins over unmarked and
other-target candidates; the definition wins over the bodyless
declaration. -/
theorem C1_witness :
    pickBest (isBetterForTarget "hlsl") (IRVal.inst [] false)
        [IRVal.inst [.targetDeco "glsl"] false, IRVal.inst [.targetDeco "hlsl"] false]
      = IRVal.inst [.targetDeco "hlsl"] false
  ∧ pickBest (isBetterForTarget "hlsl") (IRVal.inst [] false) [IRVal.inst [] true]
      = IRVal.inst [] true := by
  constructor
  · exact (C1_variantSelector_maximal "hlsl" (IRVal.inst [] false) []).2.1
      (IRVal.inst [.targetDeco "hlsl"] false) (IRVal.inst [] false)
      (IRVal.inst [.targetDeco "glsl"] false) _ _
      (by decide) (by decide) (by decide) (by decide)
  · exact (C1_variantSelector_maximal "hlsl" (IRVal.inst [] false) []).2.2
      (IRVal.inst [] true) (IRVal.inst [] false) _ _
      (by decide) (by decide) (by decide) (by decide) (by decide) (by decide)

/-- Counterexample to C2: symbol-table insertion splices each new symbol in
behind the list head, so build order `[1, 2, 3]` is stored as `[1, 3, 2]`;
and with a build order low, x, y where x and y tie at the top of the
ranking, the selector picks y (the later-inserted tied candidate), not the
first-in-build-order x. -/
theorem C2_counterexample :
    buildSymbolList [(1 : Nat), 2, 3] ≠ [1, 2, 3]
  ∧ buildSymbolList [(1 : Nat), 2, 3] = [1, 3, 2]
  ∧ isBetterForTarget "hlsl" (IRVal.inst [.linkage "x"] true) (IRVal.inst [.linkage "y"] true) = false
  ∧ isBetterForTarget "hlsl" (IRVal.inst [.linkage "y"] true) (IRVal.inst [.linkage "x"] true) = false
  ∧ isBetterForTarget "hlsl" (IRVal.inst [.linkage "x"] true) (IRVal.inst [] false) = true
  ∧ buildSymbolList [IRVal.inst [] false, IRVal.inst [.linkage "x"] true, IRVal.inst [.linkage "y"] true]
      = [IRVal.inst [] false, IRVal.inst [.linkage "y"] true, IRVal.inst [.linkage "x"] true]
  ∧ pickBest (isBetterForTarget "hlsl") (IRVal.inst [] false)
      [IRVal.inst [.linkage "y"] true, IRVal.inst [.linkage "x"] true]
      = IRVal.inst [.linkage "y"] true
  ∧ IRVal.inst [.linkage "y"] true ≠ IRVal.inst [.linkage "x"] true := by decide

/-- C2 as amended: the stored candidate list is the first-inserted candidate
followed by the remaining candidates in reverse insertion order, and when
the ranking leaves all candidates tied the selector keeps the head of the
stored list, i.e. the first-inserted candidate. -/
theorem C2_amended_storedOrder :
    (∀ (α : Type) (g : α) (gs : List α), buildSymbolList (g :: gs) = g :: gs.reverse)
  ∧ (∀ (t : String) (h : IRVal) (l : List IRVal),
      (∀ w ∈ h :: l, rankVal t w = rankVal t h) →
      pickBest (isBetterForTarget t) h l = h) := by
  constructor
  · intro α g gs
    exact buildSymbolList_eq g gs
  · intro t h l htied
    exact pickBest_of_all_tied (rankVal t) (isBetterForTarget t)
      (isBetterForTarget_eq_rank t) h l htied

/-- Witness for the amended C2 at concrete inputs. -/
theorem C2_amended_witness :
    buildSymbolList [(1 : Nat), 2, 3] = 1 :: [2, 3].reverse
  ∧ pickBest (isBetterForTarget "hlsl") (IRVal.inst [.linkage "x"] false)
      [IRVal.inst [.linkage "y"] false] = IRVal.inst [.linkage "x"] false :=
  ⟨C2_amended_storedOrder.1 Nat 1 [2, 3],
   C2_amended_storedOrder.2 "hlsl" (IRVal.inst [.linkage "x"] false)
     [IRVal.inst [.linkage "y"] false] (by decide)⟩

/-- C3: clone is idempotent under memoization — when the environment chain
already maps an original to a clone, `cloneValue` returns that identical
clone and leaves the state untouched (no new instruction is constructed);
and the environment lookup consults the innermost frame first. -/
theorem C3_clone_memoized :
    (∀ (fuel : Nat) (ctx : LinkCtx) (st : SpecState) (origId c : Nat),
      findClonedValue st.env origId = some c →
      cloneValueF (fuel + 1) ctx origId st = .ok (c, st))
  ∧ (∀ (f : List (Nat × Nat)) (fs : List (List (Nat × Nat))) (k v : Nat),
      lookupFrame f k = some v → findClonedValue (f :: fs) k = some v) := by
  constructor
  · intro fuel ctx st origId c h
    simp only [cloneValueF, cloneFns, cloneStep]
    rw [h]
  · intro f fs k v h
    simp only [findClonedValue]
    rw [h]

/-- Witness for C3: a second clone request for original 5 returns the
already-registered clone 9 without touching the state. -/
theorem C3_witness :
    cloneValueF 1 ctxTypeCycle 5 { nextId := 0, env := [[(5, 9)]] }
      = .ok (9, { nextId := 0, env := [[(5, 9)]] }) :=
  C3_clone_memoized.1 0 ctxTypeCycle { nextId := 0, env := [[(5, 9)]] } 5 9 (by decide)

/-- C6: the specialization level of a parametric (generic) declaration is
computed from the value ultimately returned by its body, not from target
annotations on the wrapper: for a generic whose first block ends in a return
of `v`, the level equals the level of `v`, independently of the wrapper's
own decorations — both on the selector's value view and on heap
instructions through `viewIRVal`. -/
theorem C6_generic_lookthrough :
    (∀ (ds : List Decoration) (v : IRVal) (t : String),
      getTargetSpecialiationLevel (.genericRet ds v) t = getTargetSpecialiationLevel v t)
  ∧ (∀ (ds ds' : List Decoration) (v : IRVal) (t : String),
      getTargetSpecialiationLevel (.genericRet ds v) t
        = getTargetSpecialiationLevel (.genericRet ds' v) t)
  ∧ (∀ (fuel : Nat) (heap : List (Nat × Inst)) (id : Nat) (i : Inst) (v : Nat) (t : String),
      lookupAssoc heap id = some i → i.op = .generic → genericReturnVal heap i = some v →
      getTargetSpecialiationLevel (viewIRVal (fuel + 1) heap id) t
        = getTargetSpecialiationLevel (viewIRVal fuel heap v) t) := by
  refine ⟨fun ds v t => rfl, fun ds ds' v t => rfl, ?_⟩
  intro fuel heap id i v t h1 h2 h3
  simp only [viewIRVal, h1, h2, h3, if_true]
  rfl

/-- Registering a mapping conses it onto the innermost environment frame. -/
theorem registerClonedValuePure_env (st : SpecState) (fr : List (Nat × Nat))
    (frs : List (List (Nat × Nat))) (h : st.env = fr :: frs) (cloned orig : Nat) :
    (registerClonedValuePure st cloned orig).env = ((orig, cloned) :: fr) :: frs := by
  unfold registerClonedValuePure
  rw [h]

/-- A lookup that already resolves to `cloned` still resolves to `cloned`
after registering more originals for the same clone. -/
theorem findClonedValue_foldRegister_preserved (cloned : Nat) (syms : List Nat)
    (st : SpecState) (fr : List (Nat × Nat)) (frs : List (List (Nat × Nat)))
    (h : st.env = fr :: frs) (o : Nat)
    (hc : findClonedValue st.env o = some cloned) :
    findClonedValue ((syms.foldl (fun s x => registerClonedValuePure s cloned x) st).env) o
      = some cloned := by
  induction syms generalizing st fr frs with
  | nil => simpa using hc
  | cons x xs ih =>
    have henv := registerClonedValuePure_env st fr frs h cloned x
    refine ih (registerClonedValuePure st cloned x) ((x, cloned) :: fr) frs henv ?_
    rw [henv]
    simp only [findClonedValue, lookupFrame]
    by_cases hx : x = o
    · rw [if_pos hx]
    · rw [if_neg hx]
      rw [h] at hc
      simpa [findClonedValue] using hc

/-- After folding the register operation over a symbol chain, every symbol
of the chain resolves to the clone. -/
theorem findClonedValue_foldRegister (cloned : Nat) (syms : List Nat)
    (st : SpecState) (fr : List (Nat × Nat)) (frs : List (List (Nat × Nat)))
    (h : st.env = fr :: frs) :
    ∀ o ∈ syms,
      findClonedValue ((syms.foldl (fun s x => registerClonedValuePure s cloned x) st).env) o
        = some cloned := by
  induction syms generalizing st fr frs with
  | nil => intro o ho; simp at ho
  | cons x xs ih =>
    intro o ho
    have henv := registerClonedValuePure_env st fr frs h cloned x
    rcases List.mem_cons.mp ho with rfl | hmem
    · refine findClonedValue_foldRegister_preserved cloned xs
        (registerClonedValuePure st cloned o) ((o, cloned) :: fr) frs henv o ?_
      rw [henv]
      simp [findClonedValue, lookupFrame]
    · exact ih (registerClonedValuePure st cloned x) ((x, cloned) :: fr) frs henv o hmem

/-- Registering a clone under an `IROriginalValuesForClone` makes every
symbol of its same-name chain resolve to the clone. -/
theorem findClonedValue_registerAllPure (st : SpecState) (fr : List (Nat × Nat))
    (frs : List (List (Nat × Nat))) (h : st.env = fr :: frs) (cloned : Nat)
    (ov : IROriginalValuesForClone) :
    ∀ o ∈ ov.sym, findClonedValue (registerAllPure st cloned ov).env o = some cloned := by
  intro o ho
  unfold registerAllPure
  match hov : ov.originalVal with
  | none =>
    exact findClonedValue_foldRegister cloned ov.sym st fr frs h o ho
  | some orig =>
    exact findClonedValue_foldRegister cloned ov.sym
      (registerClonedValuePure st cloned orig) ((orig, cloned) :: fr) frs
      (registerClonedValuePure_env st fr frs h cloned orig) o ho

/-- The divergence of the type-cycle scenario: cloning instruction 3 — whose
full type is instruction 3 itself — exhausts any fuel, at every one of the
three functions its recursion cycles through: `cloneValue` misses the memo
(nothing was registered before the type clone began), `maybeCloneValue`
starts its default path by cloning the full type, and `cloneType` clones
the value 3 again. -/
theorem typeCycleAux : ∀ n,
    ((cloneFns n).cloneValue ctxTypeCycle 3 stFresh = .error .outOfFuel)
  ∧ ((cloneFns n).maybeCloneValue ctxTypeCycle 3 stFresh = .error .outOfFuel)
  ∧ ((cloneFns n).cloneTypeOpt ctxTypeCycle (some 3) stFresh = .error .outOfFuel) := by
  intro n
  induction n with
  | zero => exact ⟨rfl, rfl, rfl⟩
  | succ m ih =>
    refine ⟨ih.2.1, SpecM.bindF_error ih.2.2, SpecM.bindF_error ih.1⟩

/-- C4: cycle safety on the mutual-reference input — functions `A` (id 1)
and `B` (id 2) reference each other; cloning terminates, produces exactly
one clone of each (ids 100 and 103), and the clones cross-reference each
other (`A`'s body calls 103, `B`'s body calls 100); and in general
`cloneFuncImpl` registers the freshly allocated clone under every same-name
original before the function's content — hence its operands — is cloned, so
the recursive visit of a back-reference resolves through the memo. -/
theorem C4_cycle_safety :
    (cloneGlobalValueF 28 ctxMutual 1 stFresh = .ok (100, mutualFinalState)
      ∧ countLinkageRoots mutualFinalState.destHeap mutualFinalState.rootChildren "A" = 1
      ∧ countLinkageRoots mutualFinalState.destHeap mutualFinalState.rootChildren "B" = 1
      ∧ countOpRoots mutualFinalState.destHeap mutualFinalState.rootChildren .func = 2
      ∧ findClonedValue mutualFinalState.env 1 = some 100
      ∧ findClonedValue mutualFinalState.env 2 = some 103
      ∧ lookupAssoc mutualFinalState.destHeap 102 = some { op := .call, operands := [103] }
      ∧ lookupAssoc mutualFinalState.destHeap 105 = some { op := .call, operands := [100] }
      ∧ lookupAssoc mutualFinalState.destHeap 100
          = some { op := .func, decorations := [.linkage "A"], children := [101] }
      ∧ lookupAssoc mutualFinalState.destHeap 103
          = some { op := .func, decorations := [.linkage "B"], children := [104] })
  ∧ (∀ (f : Nat) (next : CloneFns) (ctx : LinkCtx) (insertInto : Option Nat) (origId : Nat)
      (ov : IROriginalValuesForClone) (s : SpecState) (fr : List (Nat × Nat))
      (frs : List (List (Nat × Nat))), s.env = fr :: frs →
      ∃ s', (cloneStep f next).cloneFuncImpl ctx insertInto origId ov s
          = (next.cloneFunctionCommon ctx insertInto s.nextId origId >>= fun _ => pure s.nextId) s'
        ∧ ∀ o ∈ ov.sym, findClonedValue s'.env o = some s.nextId) := by
  constructor
  · decide
  · intro f next ctx insertInto origId ov s fr frs henv
    cases insertInto with
    | none =>
      refine ⟨_, rfl, ?_⟩
      exact findClonedValue_registerAllPure _ fr frs (by simpa using henv) s.nextId ov
    | some p =>
      refine ⟨_, rfl, ?_⟩
      exact findClonedValue_registerAllPure _ fr frs (by simpa using henv) s.nextId ov

/-- Witness for C4's registration-order conjunct at a concrete input:
before `cloneFunctionCommon` runs, the fresh clone (id 100) is already
registered under the original (id 1). -/
theorem C4_witness :
    ∃ s', (cloneStep 0 cloneFnsZero).cloneFuncImpl ctxMutual none 1
        { originalVal := none, sym := [1] } stFresh
      = (cloneFnsZero.cloneFunctionCommon ctxMutual none stFresh.nextId 1 >>= fun _ =>
          pure stFresh.nextId) s'
    ∧ ∀ o ∈ ([1] : List Nat), findClonedValue s'.env o = some stFresh.nextId :=
  C4_cycle_safety.2 0 cloneFnsZero ctxMutual none 1
    { originalVal := none, sym := [1] } stFresh [] [] rfl

/-- Counterexample to C7: on the type-cycle input — instruction 3 whose full
type refers back to itself, a mid-clone request the environment memo cannot
resolve — the cloner reports no "circular definition" error: at fuel 30 and
at fuel 90 alike it is still recursing when the fuel runs out. -/
theorem C7_counterexample :
    cloneValueF 30 ctxTypeCycle 3 stFresh = .error .outOfFuel
  ∧ cloneValueF 90 ctxTypeCycle 3 stFresh = .error .outOfFuel :=
  ⟨(typeCycleAux 30).1, (typeCycleAux 90).1⟩

/-- C7 as amended: there is no "cloning in progress" marker and no
"circular definition" error.  A clone step registers the freshly allocated
clone before recursing into operands, so a mid-clone re-request that
reaches the memo returns the in-progress clone with no error — the
self-referencing function `S` clones successfully, its body's call
referencing its own clone.  A circular reference that bypasses the memo —
an instruction whose full type refers back to the instruction itself,
cloned before registration — is not detected: the clone recurses until the
fuel bound at every fuel. -/
theorem C7_amended_no_circular_error :
    (∀ fuel : Nat, cloneValueF fuel ctxTypeCycle 3 stFresh = .error .outOfFuel)
  ∧ cloneGlobalValueF 14 ctxSelfRec 5 stFresh = .ok (100, selfRecFinalState)
  ∧ lookupAssoc selfRecFinalState.destHeap 102 = some { op := .call, operands := [100] }
  ∧ countLinkageRoots selfRecFinalState.destHeap selfRecFinalState.rootChildren "S" = 1 := by
  refine ⟨fun fuel => (typeCycleAux fuel).1, ?_, ?_, ?_⟩ <;> decide

/-- Witness for the amended C7 at a concrete fuel. -/
theorem C7_amended_witness : cloneValueF 7 ctxTypeCycle 3 stFresh = .error .outOfFuel :=
  C7_amended_no_circular_error.1 7

/-- Witness for C6: in the lookthrough scenario the wrapper generic is
tagged for `glsl` but its returned function is tagged for `hlsl`; the
generic's level for target `hlsl` equals the returned function's. -/
theorem C6_witness :
    getTargetSpecialiationLevel (viewIRVal 3 heapLookthrough 7) "hlsl"
      = getTargetSpecialiationLevel (viewIRVal 2 heapLookthrough 72) "hlsl" :=
  C6_generic_lookthrough.2.2 2 heapLookthrough 7
    { op := .generic, decorations := [.targetDeco "glsl"], children := [70] } 72 "hlsl"
    (by decide) rfl (by decide)

/-- C8: resolving a linkage name with zero candidates is fatal, not silent —
an entry-point name absent from the symbol dictionary is the fatal "no
matching IR symbol" defect before any state is touched; a linkage lookup
with no symbol entry (with an original value in hand, as on every in-file
call path) is the fatal "no matching values registered" defect; at the
whole-link level the unresolved request fails with that error while the
same shared inputs still link the resolvable entry point. -/
theorem C8_unresolved_fatal :
    (∀ (fuel : Nat) (ctx : LinkCtx) (epName : String) (epl : Nat) (pls : List Nat)
      (st : SpecState), lookupAssoc ctx.symbols epName = none →
      specializeIRForEntryPointF fuel ctx epName epl pls st = .error .noMatchingIRSymbol)
  ∧ (∀ (fuel : Nat) (ctx : LinkCtx) (ov : Nat) (name : String) (st : SpecState),
      ov ∉ st.rootChildren → findClonedValue st.env ov = none →
      lookupAssoc ctx.symbols name = none →
      cloneGlobalValueWithLinkageF (fuel + 2) ctx (some ov) (some name) st
        = .error .noMatchingValuesRegistered)
  ∧ linkIRF 12 inpUnresolved = .error .noMatchingIRSymbol
  ∧ linkIRF 12 inpLink = .ok linkOut := by
  refine ⟨?_, ?_, ?_, ?_⟩
  · intro fuel ctx epName epl pls st h
    unfold specializeIRForEntryPointF
    rw [h]
    rfl
  · intro fuel ctx ov name st h1 h2 h3
    show (cloneStep (fuel + 1) (cloneFns (fuel + 1))).cloneGlobalValueWithLinkage
      ctx (some ov) (some name) st = .error .noMatchingValuesRegistered
    simp only [cloneStep]
    rw [if_neg h1, h2]
    show (cloneStep fuel (cloneFns fuel)).cloneGlobalValueWithLinkageRest
      ctx (some ov) (some name) st = .error .noMatchingValuesRegistered
    simp only [cloneStep]
    rw [h3]
    rfl
  · have hW : witnessTablePassF 12 (linkCtxOf inpUnresolved) (linkCtxOf inpUnresolved).symbols
        (linkSt0 inpUnresolved) = .ok ((), sLink1) := by decide
    have hS : specializeIRForEntryPointF 12 (linkCtxOf inpUnresolved)
        inpUnresolved.entryPointName inpUnresolved.entryPointLayout inpUnresolved.paramLayouts
        sLink1 = .error .noMatchingIRSymbol := by decide
    unfold linkIRF
    dsimp only
    rw [SpecM.bindF_ok hW, SpecM.bindF_error hS]
  · exact linkIRF_staged 12 inpLink sLink1 sLink2 sLink2 sLink2 sLink2 12
      (by decide) (by decide) (by decide) (by decide) (by decide)

/-- Witness for C8 at concrete inputs: the empty symbol dictionary makes
both the entry-point resolution and the linkage-name resolution fail
fatally. -/
theorem C8_witness :
    specializeIRForEntryPointF 3 ctxTypeCycle "Z" 0 [] stFresh = .error .noMatchingIRSymbol
  ∧ cloneGlobalValueWithLinkageF 2 ctxTypeCycle (some 99) (some "Q") stFresh
      = .error .noMatchingValuesRegistered :=
  ⟨C8_unresolved_fatal.1 3 ctxTypeCycle "Z" 0 [] stFresh (by decide),
   C8_unresolved_fatal.2.1 0 ctxTypeCycle 99 "Q" stFresh (by decide) (by decide) (by decide)⟩

/-- C9: linking is deterministic — the embedded `linkIR` is a pure function
of the source modules, the target, the entry point and the layout inputs;
two runs on equal inputs produce equal (structurally identical) outputs. -/
theorem C9_link_deterministic :
    ∀ (fuel : Nat) (a b : LinkInput),
      a.srcHeap = b.srcHeap → a.programModule = b.programModule →
      a.dependencyModules = b.dependencyModules → a.targetName = b.targetName →
      a.entryPointName = b.entryPointName → a.entryPointLayout = b.entryPointLayout →
      a.paramLayouts = b.paramLayouts → a.taggedUnionLayouts = b.taggedUnionLayouts →
      a.debug = b.debug →
      linkIRF fuel a = linkIRF fuel b := by
  intro fuel a b h1 h2 h3 h4 h5 h6 h7 h8 h9
  have hab : a = b := by
    cases a
    cases b
    simp only at h1 h2 h3 h4 h5 h6 h7 h8 h9
    subst h1 h2 h3 h4 h5 h6 h7 h8 h9
    rfl
  rw [hab]

/-- Witness for C9: two runs of the linking scenario agree. -/
theorem C9_witness : linkIRF 12 inpLink = linkIRF 12 inpLink :=
  C9_link_deterministic 12 inpLink inpLink rfl rfl rfl rfl rfl rfl rfl rfl rfl

/-- C5: the single-definition invariant and its mechanisms — a clone is
registered under every same-name symbol of the chain, so cloning a
linkage-named value whose name is already linked is a memo hit that reuses
the existing instruction with the state untouched; in debug builds
`checkIRDuplicate` reports a second live module child with the same linkage
name as a fatal "duplicate global instruction" (and is compiled out
otherwise); and in the linking scenario, where two modules both define `F`,
the output module carries exactly one instruction with linkage `F`, both
originals being registered to that one clone. -/
theorem C5_single_definition :
    (∀ (st : SpecState) (fr : List (Nat × Nat)) (frs : List (List (Nat × Nat))),
      st.env = fr :: frs → ∀ (cloned : Nat) (ov : IROriginalValuesForClone),
      ∀ o ∈ ov.sym, findClonedValue (registerAllPure st cloned ov).env o = some cloned)
  ∧ (∀ (fuel : Nat) (ctx : LinkCtx) (ov c : Nat) (linkage : Option String) (st : SpecState),
      ov ∉ st.rootChildren → findClonedValue st.env ov = some c →
      cloneGlobalValueWithLinkageF (fuel + 1) ctx (some ov) linkage st = .ok (some c, st))
  ∧ (∀ (destHeap : List (Nat × Inst)) (roots : List Nat) (instId : Nat) (name : String),
      (checkIRDuplicateF true destHeap roots instId name = .error .duplicateGlobalInstruction
        ↔ ∃ child ∈ roots, child ≠ instId ∧ hasLinkageNamed destHeap child name = true)
      ∧ checkIRDuplicateF false destHeap roots instId name = .ok ())
  ∧ (linkIRF 12 inpLink = .ok linkOut
      ∧ countLinkageRoots linkOut.destHeap linkOut.rootChildren "F" = 1
      ∧ findClonedValue sLink2.env 1 = some 12
      ∧ findClonedValue sLink2.env 2 = some 12
      ∧ checkIRDuplicateF true
          [(0, { op := .func, decorations := [.linkage "F"] }),
           (1, { op := .func, decorations := [.linkage "F"] })] [0, 1] 1 "F"
          = .error .duplicateGlobalInstruction) := by
  refine ⟨?_, ?_, ?_, ?_⟩
  · intro st fr frs h cloned ov
    exact findClonedValue_registerAllPure st fr frs h cloned ov
  · intro fuel ctx ov c linkage st h1 h2
    show (cloneStep fuel (cloneFns fuel)).cloneGlobalValueWithLinkage
      ctx (some ov) linkage st = .ok (some c, st)
    simp only [cloneStep]
    rw [if_neg h1, h2]
  · intro destHeap roots instId name
    constructor
    · rw [show checkIRDuplicateF true destHeap roots instId name
          = (if roots.any (fun child => decide (child ≠ instId)
                && hasLinkageNamed destHeap child name)
             then Except.error LinkError.duplicateGlobalInstruction
             else Except.ok ()) from rfl]
      by_cases hA : (roots.any fun child => decide (child ≠ instId)
          && hasLinkageNamed destHeap child name) = true
      · rw [if_pos hA]
        simp only [List.any_eq_true, Bool.and_eq_true, decide_eq_true_eq] at hA
        simpa using hA
      · rw [if_neg hA]
        simp only [List.any_eq_true, Bool.and_eq_true, decide_eq_true_eq] at hA
        constructor
        · intro h
          exact absurd h (by simp)
        · intro h
          exact absurd h hA
    · rfl
  · refine ⟨?_, by decide, by decide, by decide, by decide⟩
    exact linkIRF_staged 12 inpLink sLink1 sLink2 sLink2 sLink2 sLink2 12
      (by decide) (by decide) (by decide) (by decide) (by decide)

/-- Witness for C5 at concrete inputs: the bulk registration maps both
same-name originals to the clone, and a memo hit reuses the existing clone
without touching the state. -/
theorem C5_witness :
    findClonedValue (registerAllPure stFresh 42 { sym := [7, 8] }).env 7 = some 42
  ∧ cloneGlobalValueWithLinkageF 1 ctxTypeCycle (some 7) none
      { nextId := 0, env := [[(7, 42)]] } = .ok (some 42, { nextId := 0, env := [[(7, 42)]] }) :=
  ⟨C5_single_definition.1 stFresh [] [] rfl 42 { sym := [7, 8] } 7 (by decide),
   C5_single_definition.2.1 0 ctxTypeCycle 7 42 none { nextId := 0, env := [[(7, 42)]] }
     (by decide) (by decide)⟩

/-- C10: before the entry point is cloned, `linkIR` clones every
symbol-table entry whose first registered instruction is a witness table,
regardless of reachability — the pre-pass runs first (its failure aborts
the link before the entry point is touched), each entry whose head is a
witness table triggers `cloneGlobalValue` on that head, and in the sweep
scenario both unreferenced witness tables appear in the output module (and
already in the pre-pass state, before any function is cloned) while the
unreferenced non-witness-table symbol `S` does not. -/
theorem C10_witnessTable_prepass :
    (∀ (fuel : Nat) (inp : LinkInput) (e : LinkError),
      witnessTablePassF fuel (linkCtxOf inp) (linkCtxOf inp).symbols (linkSt0 inp) = .error e →
      linkIRF fuel inp = .error e)
  ∧ (∀ (fuel : Nat) (ctx : LinkCtx) (name : String) (h : Nat) (hs : List Nat)
      (rest : List (String × List Nat)) (i : Inst) (st : SpecState),
      lookupAssoc ctx.srcHeap h = some i → i.op = .witnessTable →
      witnessTablePassF fuel ctx ((name, h :: hs) :: rest) st
        = ((cloneGlobalValueF fuel ctx h >>= fun _ => pure (() : Unit)) >>= fun _ =>
            witnessTablePassF fuel ctx rest) st)
  ∧ (witnessTablePassF 14 (linkCtxOf inpSweep) (linkCtxOf inpSweep).symbols (linkSt0 inpSweep)
        = .ok ((), sSweep1)
      ∧ countOpRoots sSweep1.destHeap sSweep1.rootChildren .witnessTable = 2
      ∧ countOpRoots sSweep1.destHeap sSweep1.rootChildren .func = 0
      ∧ linkIRF 14 inpSweep = .ok sweepOut
      ∧ countLinkageRoots sweepOut.destHeap sweepOut.rootChildren "W1" = 1
      ∧ countLinkageRoots sweepOut.destHeap sweepOut.rootChildren "W2" = 1
      ∧ countLinkageRoots sweepOut.destHeap sweepOut.rootChildren "S" = 0
      ∧ lookupAssoc srcSweep 10 = some { op := .block }
      ∧ hasLinkageNamed sweepOut.destHeap 11 "W1" = true
      ∧ hasLinkageNamed sweepOut.destHeap 12 "W2" = true
      ∧ 11 ∈ sweepOut.rootChildren ∧ 12 ∈ sweepOut.rootChildren) := by
  refine ⟨?_, ?_, ?_⟩
  · intro fuel inp e hW
    unfold linkIRF
    dsimp only
    rw [SpecM.bindF_error hW]
  · intro fuel ctx name h hs rest i st h1 h2
    show ((match lookupAssoc ctx.srcHeap h with
      | none => throwE .danglingReference
      | some hi =>
        if hi.op = .witnessTable then do
          let _ ← cloneGlobalValueF fuel ctx h
          pure ()
        else pure ()) >>= fun _ => witnessTablePassF fuel ctx rest) st = _
    rw [h1]
    dsimp only
    rw [if_pos h2]
  · refine ⟨by decide, by decide, by decide, ?_, by decide, by decide, by decide,
      by decide, by decide, by decide, by decide, by decide⟩
    exact linkIRF_staged 14 inpSweep sSweep1 sSweep2 sSweep2 sSweep2 sSweep2 13
      (by decide) (by decide) (by decide) (by decide) (by decide)

/-- Witness for C10: the per-entry step equation at a concrete witness-table
entry. -/
theorem C10_witness :
    witnessTablePassF 5 (linkCtxOf inpSweep) [("W1", [3])] stFresh
      = ((cloneGlobalValueF 5 (linkCtxOf inpSweep) 3 >>= fun _ => pure (() : Unit)) >>= fun _ =>
          witnessTablePassF 5 (linkCtxOf inpSweep) []) stFresh :=
  C10_witnessTable_prepass.2.1 5 (linkCtxOf inpSweep) "W1" 3 [] []
    { op := .witnessTable, decorations := [.linkage "W1"] } stFresh (by decide) rfl

end SlangLink
